import Mathlib

/-!
Verification of the InvenTree internal-barcode plugin
(`src/backend/InvenTree/plugin/builtin/barcodes/inventree_barcode.py`)
and of the `Part.stock` aggregate (`InvenTree/part/models.py`),
as a shallow embedding in Lean.

The scan engine consults external collaborators (the barcode model
registry, the record store, `json.loads`, `hash_barcode`).  These are
modelled as an explicit environment `Env`; the control flow of
`InvenTreeInternalBarcodePlugin.scan` / `.generate` is translated
statement by statement.  Python exceptions that the source can raise
and catch (`ValueError`, `TypeError`, `model.DoesNotExist`) are made
explicit through `Except PyErr`.
-/

namespace InvenTreeBarcode

/-- Python exceptions relevant to the scan code paths:
`ValueError` (bad `int()` conversion from a string),
`TypeError` (an `int()` argument of a non-coercible type such as
`None`, a list or a dict), and Django's `model.DoesNotExist`
(raised by `model.objects.get` when no row matches). -/
inductive PyErr where
  | valueError
  | typeError
  | doesNotExist
deriving DecidableEq, Repr

/-- The subset of Python values a decoded barcode document can hold
(what `json.loads` can return and what a caller-supplied dict can
contain): integers, strings, `None`, arrays and nested objects. -/
inductive PyVal where
  | int (n : Int)
  | str (s : String)
  | null
  | list (xs : List PyVal)
  | dict (entries : List (String × PyVal))

/-- A Python dict with string keys, as an association list in insertion
order (Python dict keys are unique, so first-match lookup agrees with
dict indexing). -/
abbrev PyDict := List (String × PyVal)

/-- The `barcode_data` argument of `scan`: the plugin only inspects
payloads that are `str` or `dict` (`type(barcode_data) is str` /
`is dict`). -/
inductive BarcodeData where
  | str (s : String)
  | dict (d : PyDict)

/-- A database row handle: its integer primary key (`instance.pk`) and
the opaque document `instance.format_matched_response()` renders. -/
structure Record where
  pk : Int
  matchedResponse : String
deriving DecidableEq, Repr

/-- One barcode-capable model class, as the scan engine sees it:
`barcode_model_type()` (the label), `barcode_model_type_code()` (the
two-character code), `objects.get(pk=...)` and
`lookup_barcode(barcode_hash)`. -/
structure Model where
  typeLabel : String
  typeCode : String
  objectsGet : Int → Option Record
  lookupBarcode : String → Option Record

/-- A response returned by a successful scan: the dict
`{label: instance.format_matched_response()}`, plus the optional
`success` key that strategies 2 and 3 add by dict spreading. -/
structure ScanResponse where
  label : String
  matched : String
  success : Option String
deriving DecidableEq, Repr

/-- The external state `scan` / `generate` consult: the two plugin
settings, the ordered registry of barcode-capable models
(`get_supported_barcode_models()`), the `json.loads` parser (returning
`none` on `JSONDecodeError`) and the `hash_barcode` helper.
`jsonLoads` and `hashBarcode` are library / helper code outside the
visible source, so they are kept abstract here. -/
structure Env where
  pfx : String
  fmt : String
  models : List Model
  jsonLoads : String → Option PyVal
  hashBarcode : BarcodeData → String

/-- The translated `_('Found matching item')` message. -/
def successMessage : String := "Found matching item"

/-- ASCII decimal digit test (`\d` of the source regex, restricted to
ASCII). -/
def isAsciiDigit (c : Char) : Bool := 48 ≤ c.toNat && c.toNat ≤ 57

/-- Numeric value of an ASCII digit character. -/
def digitVal (c : Char) : Nat := c.toNat - 48

/-- The character class `[0-9A-Z $%*+-.\/:]` of the short-barcode
regex.  Note that `+-.` is a regex range, so it admits `+`, `,`, `-`
and `.`. -/
def isShortCodeChar (c : Char) : Bool :=
  isAsciiDigit c || (65 ≤ c.toNat && c.toNat ≤ 90) ||
    c.toNat = 32 || c.toNat = 36 || c.toNat = 37 || c.toNat = 42 ||
    (43 ≤ c.toNat && c.toNat ≤ 46) || c.toNat = 47 || c.toNat = 58

/-- The whitespace characters Python's `int(str)` strips. -/
def isPyWhitespace (c : Char) : Bool :=
  c.toNat = 32 || (9 ≤ c.toNat && c.toNat ≤ 13)

/-- Accumulating decimal parser: fails on any non-digit character. -/
def parseDigitsAux : List Char → Nat → Option Nat
  | [], acc => some acc
  | c :: cs, acc =>
    if isAsciiDigit c then parseDigitsAux cs (acc * 10 + digitVal c) else none

/-- Parse a non-empty all-digit character list as a natural number. -/
def parseDigits (cs : List Char) : Option Nat :=
  match cs with
  | [] => none
  | _ => parseDigitsAux cs 0

/-- Strip leading and trailing whitespace, as `int(str)` does. -/
def stripWs (cs : List Char) : List Char :=
  ((cs.dropWhile isPyWhitespace).reverse.dropWhile isPyWhitespace).reverse

/-- Python `int(s)` for a string argument: optional surrounding
whitespace, optional sign, one or more decimal digits; `none` models a
raised `ValueError`. -/
def intOfString (s : String) : Option Int :=
  match stripWs s.data with
  | '+' :: rest => (parseDigits rest).map (fun n => (n : Int))
  | '-' :: rest => (parseDigits rest).map (fun n => -(n : Int))
  | rest => (parseDigits rest).map (fun n => (n : Int))

/-- Python `int(x)`: identity on ints, string parsing for strings
(`ValueError` on failure), and `TypeError` for `None`, lists and
dicts. -/
def pyInt : PyVal → Except PyErr Int
  | .int n => .ok n
  | .str s =>
    match intOfString s with
    | some n => .ok n
    | none => .error .valueError
  | _ => .error .typeError

/-- The decimal digit character for `d % 10`. -/
def digitChar : Nat → Char
  | 0 => '0'
  | 1 => '1'
  | 2 => '2'
  | 3 => '3'
  | 4 => '4'
  | 5 => '5'
  | 6 => '6'
  | 7 => '7'
  | 8 => '8'
  | _ => '9'

/-- Little-endian decimal digits of `n`, with explicit fuel (any
`fuel ≥ n` suffices, see `natDigitsAux_spec`). -/
def natDigitsAux : Nat → Nat → List Char
  | 0, _ => []
  | fuel + 1, n =>
    if n = 0 then [] else digitChar (n % 10) :: natDigitsAux fuel (n / 10)

/-- Big-endian decimal rendering of a natural number, as Python's
`str` / f-string formatting produces it (no leading zeros, `"0"` for
zero). -/
def natDigits (n : Nat) : List Char :=
  if n = 0 then ['0'] else (natDigitsAux n n).reverse

/-- Python `str(i)` / f-string rendering of an int. -/
def pyStrOfInt : Int → String
  | .ofNat m => ⟨natDigits m⟩
  | .negSucc m => ⟨'-' :: natDigits (m + 1)⟩

/-- Accept a non-empty all-digit character group (`\d+`). -/
def splitDigitsCore (core : List Char) : Option (List Char) :=
  if core ≠ [] ∧ core.all isAsciiDigit then some core else none

/-- The `(\d+)$` tail of the short-barcode regex: one or more decimal
digits, optionally followed by a single final newline (Python's `$`
also matches just before a newline that ends the string).  Returns the
digit group. -/
def splitDigitsTail (cs : List Char) : Option (List Char) :=
  splitDigitsCore (if cs.getLast? = some '\n' then cs.dropLast else cs)

/-- The anchored regex match
`re.match(f'^{re.escape(prefix)}([0-9A-Z $%*+-.\/:]{2})(\d+)$', s)`:
on success, the two captured groups (type code, digit string). -/
def matchShortPattern (pfx : String) (s : String) : Option (String × String) :=
  let ps := pfx.data
  let cs := s.data
  if cs.take ps.length = ps then
    match cs.drop ps.length with
    | c1 :: c2 :: rest =>
      if isShortCodeChar c1 && isShortCodeChar c2 then
        match splitDigitsTail rest with
        | some ds => some (⟨[c1, c2]⟩, ⟨ds⟩)
        | none => none
      else none
    | _ => none
  else none

/-- Modelled from the spec: the registry's code-to-descriptor map
(`plugin.base.barcodes.helper.get_supported_barcode_model_codes_map`,
whose body is not part of the visible source).  Per the spec it maps
each registered type code to its descriptor
(`descriptorByCode(code) -> Option<BarcodeModelDescriptor>`),
here realised as lookup over the ordered registry. -/
def codesMapGet (models : List Model) (code : String) : Option Model :=
  models.find? (fun m => m.typeCode == code)

/-- `model.objects.get(pk=k)`: raises `DoesNotExist` when no row has
that primary key. -/
def objectsGetE (m : Model) (k : Int) : Except PyErr Record :=
  match m.objectsGet k with
  | some r => .ok r
  | none => .error .doesNotExist

/-- The `try: pk = int(v); instance = model.objects.get(pk=pk);
return resp(instance)` body shared by strategies 1 and 2. -/
def tryGetResponse (m : Model) (v : PyVal) (resp : Record → ScanResponse) :
    Except PyErr (Option ScanResponse) :=
  match pyInt v with
  | .error e => .error e
  | .ok k =>
    match objectsGetE m k with
    | .error e => .error e
    | .ok inst => .ok (some (resp inst))

/-- The `except (ValueError, model.DoesNotExist): pass` handler:
those two exceptions become an ordinary fall-through (`none`); any
other exception propagates. -/
def catchVDE (r : Except PyErr (Option ScanResponse)) :
    Except PyErr (Option ScanResponse) :=
  match r with
  | .error .valueError => .ok none
  | .error .doesNotExist => .ok none
  | other => other

/-- `format_matched_response(label, model, instance)`: the dict
`{label: instance.format_matched_response()}` (no `success` key). -/
def formatMatchedResponse (m : Model) (r : Record) : ScanResponse :=
  ⟨m.typeLabel, r.matchedResponse, none⟩

/-- `{**format_matched_response(...), 'success': _('Found matching item')}`. -/
def withSuccess (resp : ScanResponse) : ScanResponse :=
  { resp with success := some successMessage }

/-- Outcome of the short-format stage of `scan`: either the function
returns right away (with a response, `None`, or an uncaught
exception), or control falls through to the JSON / hash stages. -/
inductive ShortOutcome where
  | fallthrough
  | finish (r : Except PyErr (Option ScanResponse))

/-- Strategy 1 (source lines 60-84): if the payload is a string
matching the short-barcode regex, look the type code up in the codes
map; an unknown code makes `scan` return `None` immediately
(`if model is None: return None`); otherwise try to fetch the record,
with `ValueError` / `DoesNotExist` falling through to the remaining
strategies. -/
def scanShortStage (pfx : String) (models : List Model) (b : BarcodeData) :
    ShortOutcome :=
  match b with
  | .dict _ => .fallthrough
  | .str s =>
    match matchShortPattern pfx s with
    | none => .fallthrough
    | some (cc, ds) =>
      match codesMapGet models cc with
      | none => .finish (.ok none)
      | some m =>
        match catchVDE (tryGetResponse m (.str ds) (formatMatchedResponse m)) with
        | .ok (some r) => .finish (.ok (some r))
        | .ok none => .fallthrough
        | .error e => .finish (.error e)

/-- `label in barcode_dict` followed by `barcode_dict[label]`. -/
def lookupKey (d : PyDict) (key : String) : Option PyVal :=
  (d.find? (fun kv => kv.1 == key)).map (fun kv => kv.2)

/-- Strategy 2 (source lines 103-118): iterate the registry in order;
for the first model whose label is a key of the dict, try
`int(value)` + `objects.get`; `ValueError` / `DoesNotExist` continue
with the next model, any other exception propagates; a hit returns the
response with the `success` message added. -/
def scanStructured (models : List Model) (d : PyDict) :
    Except PyErr (Option ScanResponse) :=
  match models with
  | [] => .ok none
  | m :: rest =>
    match lookupKey d m.typeLabel with
    | none => scanStructured rest d
    | some v =>
      match catchVDE (tryGetResponse m v
          (fun inst => withSuccess (formatMatchedResponse m inst))) with
      | .ok (some r) => .ok (some r)
      | .ok none => scanStructured rest d
      | .error e => .error e

/-- Strategy 3 (source lines 124-134): iterate the registry in order
and return the first `lookup_barcode(barcode_hash)` hit, with the
`success` message added. -/
def scanHash (models : List Model) (h : String) : Option ScanResponse :=
  match models with
  | [] => none
  | m :: rest =>
    match m.lookupBarcode h with
    | some inst => some (withSuccess (formatMatchedResponse m inst))
    | none => scanHash rest h

/-- Source lines 89-97 and the guard on line 103: coerce the payload
into a dict (`barcode_data` itself when it is a dict, else
`json.loads` on a string, keeping the result only when it is a
dict). -/
def getBarcodeDict (loads : String → Option PyVal) : BarcodeData → Option PyDict
  | .dict d => some d
  | .str s =>
    match loads s with
    | some (.dict d) => some d
    | _ => none

/-- The JSON stage of `scan`: run strategy 2 when a dict was obtained,
otherwise yield no match. -/
def scanDictStage (models : List Model) (loads : String → Option PyVal)
    (b : BarcodeData) : Except PyErr (Option ScanResponse) :=
  match getBarcodeDict loads b with
  | some d => scanStructured models d
  | none => .ok none

/-- `InvenTreeInternalBarcodePlugin.scan` (source lines 55-134):
strategy 1, then strategy 2, then strategy 3 over the hash of the raw
payload; `.ok none` is Python's implicit `return None` (no match). -/
def scan (env : Env) (b : BarcodeData) : Except PyErr (Option ScanResponse) :=
  match scanShortStage env.pfx env.models b with
  | .finish r => r
  | .fallthrough =>
    match scanDictStage env.models env.jsonLoads b with
    | .error e => .error e
    | .ok (some r) => .ok (some r)
    | .ok none => .ok (scanHash env.models (env.hashBarcode b))

/-- `json.dumps({label: pk})` for a single-key dict whose key needs no
JSON escaping (the type labels are plain identifiers). -/
def jsonDumpsSingle (label : String) (pk : Int) : String :=
  "\x7b\"" ++ label ++ "\": " ++ pyStrOfInt pk ++ "\x7d"

/-- `InvenTreeInternalBarcodePlugin.generate` (source lines 136-149):
the short format concatenates prefix, the instance's own type code and
its primary key; otherwise (default json) a single-key JSON document
is produced. -/
def generate (env : Env) (m : Model) (inst : Record) : String :=
  if env.fmt == "short" then env.pfx ++ m.typeCode ++ pyStrOfInt inst.pk
  else jsonDumpsSingle m.typeLabel inst.pk

/-- Strategy 2 per-model outcome "yields no match, continue": the label
is absent, or `int(value)` raises `ValueError`, or the record does not
exist. -/
def structSoftFail (m : Model) (d : PyDict) : Bool :=
  match lookupKey d m.typeLabel with
  | none => true
  | some v =>
    match pyInt v with
    | .error .valueError => true
    | .error _ => false
    | .ok k => (m.objectsGet k).isNone

/-- Strategy 2 per-model outcome "resolves to `inst`": the label is
present, its value coerces to a primary key, and the store returns
`inst` for it. -/
def structResolves (m : Model) (d : PyDict) (inst : Record) : Bool :=
  match lookupKey d m.typeLabel with
  | none => false
  | some v =>
    match pyInt v with
    | .ok k => m.objectsGet k == some inst
    | .error _ => false

/-- One stock entry of a part (a row of the stock model related by
`Part.locations`; that model is outside the visible source, its
`quantity` is a non-negative integer quantity field). -/
structure StockEntry where
  quantity : Nat
deriving DecidableEq, Repr

/-- The slice of `Part` that its `stock` property reads: the related
stock entries `self.locations.all()`. -/
structure PartRec where
  locations : List StockEntry

/-- `stocks.aggregate(total=Sum('quantity'))['total']` on a non-empty
queryset: the sum of the `quantity` column. -/
def sumAggregate (stocks : List StockEntry) : Nat :=
  (stocks.map StockEntry.quantity).foldl (· + ·) 0

/-- `Part.stock` (part/models.py lines 65-76): `0` when there are no
stock entries, otherwise the aggregated sum of quantities. -/
def partStock (p : PartRec) : Nat :=
  if p.locations.length = 0 then 0 else sumAggregate p.locations

end InvenTreeBarcode

namespace InvenTreeBarcode

/-- The decimal step function underlying both the parser and the value
of a digit list. -/
def decStep (acc : Nat) (c : Char) : Nat := acc * 10 + digitVal c

/-! Concrete fixtures used to witness the theorems on sample registries,
record stores and payloads. -/

/-- A sample part record with primary key 42. -/
def recPart42 : Record := ⟨42, "part42"⟩

/-- A sample stock-location record with primary key 5. -/
def recLoc5 : Record := ⟨5, "loc5"⟩

/-- A sample stock-item record with primary key 1, reachable only via a
linked third-party barcode hash. -/
def recItem1 : Record := ⟨1, "item1"⟩

/-- A part model: label `part`, code `PA`, one record with pk 42, no
linked barcodes. -/
def mPart : Model :=
  { typeLabel := "part", typeCode := "PA",
    objectsGet := fun k => if k = 42 then some recPart42 else none,
    lookupBarcode := fun _ => none }

/-- A part model backed by an empty record store. -/
def mPartEmpty : Model :=
  { typeLabel := "part", typeCode := "PA",
    objectsGet := fun _ => none,
    lookupBarcode := fun _ => none }

/-- A stock-location model: label `stocklocation`, code `SL`, one
record with pk 5. -/
def mLoc : Model :=
  { typeLabel := "stocklocation", typeCode := "SL",
    objectsGet := fun k => if k = 5 then some recLoc5 else none,
    lookupBarcode := fun _ => none }

/-- A stock-item model whose only record is linked to the external
barcode hash `"HV"`. -/
def mItem : Model :=
  { typeLabel := "stockitem", typeCode := "SI",
    objectsGet := fun _ => none,
    lookupBarcode := fun h => if h = "HV" then some recItem1 else none }

/-- Environment with a part model and a hash-linked stock-item model;
every payload hashes to `"HV"`, nothing parses as JSON. -/
def envHash : Env :=
  { pfx := "INV-", fmt := "json", models := [mPart, mItem],
    jsonLoads := fun _ => none, hashBarcode := fun _ => "HV" }

/-- Environment whose JSON parser decodes `"INV-PA42"` as a structured
document as well, to exercise the strategy-priority claim. -/
def envBoth : Env :=
  { pfx := "INV-", fmt := "json", models := [mPart],
    jsonLoads := fun s =>
      if s = "INV-PA42" then some (.dict [("part", .int 1)]) else none,
    hashBarcode := fun _ => "H0" }

/-- Environment with two structured-capable models (part before
stock-location) for the first-match-wins claim. -/
def envTwo : Env :=
  { pfx := "INV-", fmt := "json", models := [mPart, mLoc],
    jsonLoads := fun _ => none, hashBarcode := fun _ => "H0" }

/-- Short-format environment with the part registry. -/
def envShort : Env :=
  { pfx := "INV-", fmt := "short", models := [mPart],
    jsonLoads := fun _ => none, hashBarcode := fun _ => "H0" }

/-- Short-format environment over an empty part store. -/
def envShortEmpty : Env :=
  { pfx := "INV-", fmt := "short", models := [mPartEmpty],
    jsonLoads := fun _ => none, hashBarcode := fun _ => "H0" }

/-- JSON-format environment whose parser decodes exactly the document
`generate` emits for part 42. -/
def envJson : Env :=
  { pfx := "INV-", fmt := "json", models := [mPart],
    jsonLoads := fun s =>
      if s = jsonDumpsSingle "part" 42 then some (.dict [("part", .int 42)])
      else none,
    hashBarcode := fun _ => "H0" }

/-- Like `envJson` but over an empty part store. -/
def envJsonEmpty : Env :=
  { pfx := "INV-", fmt := "json", models := [mPartEmpty],
    jsonLoads := fun s =>
      if s = jsonDumpsSingle "part" 42 then some (.dict [("part", .int 42)])
      else none,
    hashBarcode := fun _ => "H0" }

/-- A structured payload naming both registered labels, both
resolvable. -/
def d4a : PyDict := [("part", .int 42), ("stocklocation", .int 5)]

/-- A structured payload whose `part` id matches no record while the
later `stocklocation` id resolves. -/
def d4b : PyDict := [("part", .int 99), ("stocklocation", .int 5)]

theorem digitChar_isDigit (d : Nat) : isAsciiDigit (digitChar d) = true := by
  rcases d with _ | _ | _ | _ | _ | _ | _ | _ | _ | d <;> rfl

theorem digitVal_digitChar (d : Nat) (h : d < 10) : digitVal (digitChar d) = d := by
  rcases d with _ | _ | _ | _ | _ | _ | _ | _ | _ | d
  all_goals first
    | rfl
    | (have hd : d = 0 := by omega
       subst hd; rfl)

theorem digitChar_eq_zero (d : Nat) (h : digitChar d = '0') : d = 0 := by
  rcases d with _ | _ | _ | _ | _ | _ | _ | _ | _ | d
  all_goals simp_all [digitChar]

theorem natDigitsAux_zero (fuel : Nat) : natDigitsAux fuel 0 = [] := by
  cases fuel <;> rfl

theorem natDigitsAux_all (fuel n : Nat) :
    (natDigitsAux fuel n).all isAsciiDigit = true := by
  induction fuel generalizing n with
  | zero => rfl
  | succ fuel ih =>
    rw [natDigitsAux]
    split
    · rfl
    · simp [List.all_cons, digitChar_isDigit, ih]

theorem natDigitsAux_ne_nil (fuel n : Nat) (h1 : 1 ≤ n) (h2 : n ≤ fuel) :
    natDigitsAux fuel n ≠ [] := by
  cases fuel with
  | zero => omega
  | succ fuel =>
    rw [natDigitsAux]
    split
    · omega
    · simp

theorem natDigitsAux_foldl (fuel : Nat) :
    ∀ n a, n ≤ fuel →
      ((natDigitsAux fuel n).reverse).foldl decStep a =
        a * 10 ^ (natDigitsAux fuel n).length + n := by
  induction fuel with
  | zero =>
    intro n a h
    have hn : n = 0 := by omega
    subst hn
    rw [natDigitsAux_zero]
    simp
  | succ fuel ih =>
    intro n a h
    rw [natDigitsAux]
    split
    · simp_all
    · rename_i hn
      have hdiv : n / 10 ≤ fuel := by
        have := Nat.div_lt_self (Nat.pos_of_ne_zero hn) (by omega : 1 < 10)
        omega
      rw [List.reverse_cons, List.foldl_append, ih (n / 10) a hdiv]
      simp only [List.foldl_cons, List.foldl_nil, decStep, List.length_cons]
      rw [digitVal_digitChar (n % 10) (Nat.mod_lt n (by omega))]
      rw [pow_succ]
      have := Nat.div_add_mod n 10
      ring_nf
      omega

theorem natDigitsAux_getLast_ne_zero (fuel : Nat) :
    ∀ n, 1 ≤ n → n ≤ fuel → (natDigitsAux fuel n).getLast? ≠ some '0' := by
  induction fuel with
  | zero => intro n h1 h2; omega
  | succ fuel ih =>
    intro n h1 h2
    rw [natDigitsAux]
    split
    · omega
    · rename_i hn
      by_cases hq : n / 10 = 0
      · rw [hq, natDigitsAux_zero]
        have hlt : n < 10 := by omega
        simp only [List.getLast?_singleton]
        intro hc
        have hc' := Option.some.inj hc
        have := digitChar_eq_zero (n % 10) hc'
        rw [Nat.mod_eq_of_lt hlt] at this
        omega
      · have hdiv : n / 10 ≤ fuel := by
          have := Nat.div_lt_self (Nat.pos_of_ne_zero hn) (by omega : 1 < 10)
          omega
        have hne := natDigitsAux_ne_nil fuel (n / 10) (by omega) hdiv
        rcases hrest : natDigitsAux fuel (n / 10) with _ | ⟨c, cs⟩
        · exact absurd hrest hne
        · rw [List.getLast?_cons_cons, ← hrest]
          exact ih (n / 10) (by omega) hdiv

theorem natDigits_ne_nil (n : Nat) : natDigits n ≠ [] := by
  rw [natDigits]
  split
  · simp
  · rename_i hn
    simp only [ne_eq, List.reverse_eq_nil_iff]
    exact natDigitsAux_ne_nil n n (by omega) le_rfl

theorem natDigits_all (n : Nat) : (natDigits n).all isAsciiDigit = true := by
  rw [natDigits]
  split
  · rfl
  · rw [List.all_reverse]
    exact natDigitsAux_all n n

theorem natDigits_foldl (n : Nat) : (natDigits n).foldl decStep 0 = n := by
  rw [natDigits]
  split
  · simp_all [decStep, digitVal]
  · rw [natDigitsAux_foldl n n 0 le_rfl]
    simp

theorem natDigits_head_zero (n : Nat) (h : (natDigits n).head? = some '0') :
    n = 0 := by
  by_contra hn
  rw [natDigits, if_neg hn, List.head?_reverse] at h
  exact natDigitsAux_getLast_ne_zero n n (by omega) le_rfl h

theorem parseDigitsAux_all (cs : List Char) (h : cs.all isAsciiDigit = true) :
    ∀ acc, parseDigitsAux cs acc = some (cs.foldl decStep acc) := by
  induction cs with
  | nil => intro acc; rfl
  | cons c cs ih =>
    intro acc
    simp only [List.all_cons, Bool.and_eq_true] at h
    rw [parseDigitsAux, if_pos h.1, List.foldl_cons]
    exact ih h.2 _

theorem parseDigits_all (cs : List Char) (h1 : cs ≠ [])
    (h2 : cs.all isAsciiDigit = true) :
    parseDigits cs = some (cs.foldl decStep 0) := by
  rcases cs with _ | ⟨c, cs⟩
  · exact absurd rfl h1
  · exact parseDigitsAux_all _ h2 0

theorem digit_not_ws (c : Char) (h : isAsciiDigit c = true) :
    isPyWhitespace c = false := by
  simp only [isAsciiDigit, Bool.and_eq_true, decide_eq_true_eq] at h
  simp only [isPyWhitespace, Bool.or_eq_false_iff, decide_eq_false_iff_not,
    Bool.and_eq_false_iff]
  omega

theorem dropWhile_ws_digits (cs : List Char) (h : cs.all isAsciiDigit = true) :
    cs.dropWhile isPyWhitespace = cs := by
  rcases cs with _ | ⟨c, cs⟩
  · rfl
  · simp only [List.all_cons, Bool.and_eq_true] at h
    rw [List.dropWhile_cons, digit_not_ws c h.1]
    simp

theorem stripWs_digits (cs : List Char) (h : cs.all isAsciiDigit = true) :
    stripWs cs = cs := by
  rw [stripWs, dropWhile_ws_digits cs h,
    dropWhile_ws_digits cs.reverse (by rwa [List.all_reverse]),
    List.reverse_reverse]

theorem intOfString_digits (cs : List Char) (h1 : cs ≠ [])
    (h2 : cs.all isAsciiDigit = true) :
    intOfString ⟨cs⟩ = some (Int.ofNat (cs.foldl decStep 0)) := by
  have hdata : (⟨cs⟩ : String).data = cs := rfl
  rw [intOfString, hdata, stripWs_digits cs h2]
  rcases cs with _ | ⟨c, cs⟩
  · exact absurd rfl h1
  · simp only [List.all_cons, Bool.and_eq_true] at h2
    have hc : c ≠ '+' ∧ c ≠ '-' := by
      constructor <;> (intro he; subst he; exact absurd h2.1 (by decide))
    split
    · rename_i heq
      rw [List.cons.injEq] at heq
      exact absurd heq.1 hc.1
    · rename_i heq
      rw [List.cons.injEq] at heq
      exact absurd heq.1 hc.2
    · rw [parseDigits_all _ (by simp) (by simp [List.all_cons, h2.1, h2.2])]
      rfl

theorem pyInt_digits (cs : List Char) (h1 : cs ≠ [])
    (h2 : cs.all isAsciiDigit = true) :
    pyInt (.str ⟨cs⟩) = .ok (Int.ofNat (cs.foldl decStep 0)) := by
  rw [pyInt, intOfString_digits cs h1 h2]

theorem pyInt_natDigits (n : Nat) :
    pyInt (.str ⟨natDigits n⟩) = .ok (Int.ofNat n) := by
  rw [pyInt_digits (natDigits n) (natDigits_ne_nil n) (natDigits_all n),
    natDigits_foldl]

end InvenTreeBarcode

namespace InvenTreeBarcode

theorem splitDigitsCore_digits (ds : List Char) (h1 : ds ≠ [])
    (h2 : ds.all isAsciiDigit = true) : splitDigitsCore ds = some ds := by
  rw [splitDigitsCore, if_pos ⟨h1, h2⟩]

theorem splitDigitsCore_some (cs ds : List Char) (h : splitDigitsCore cs = some ds) :
    cs = ds ∧ ds ≠ [] ∧ ds.all isAsciiDigit = true := by
  rw [splitDigitsCore] at h
  split at h
  · rename_i hcond
    exact ⟨Option.some.inj h, (Option.some.inj h) ▸ hcond.1, (Option.some.inj h) ▸ hcond.2⟩
  · exact absurd h (by simp)

theorem splitDigitsTail_digits (ds : List Char) (h1 : ds ≠ [])
    (h2 : ds.all isAsciiDigit = true) : splitDigitsTail ds = some ds := by
  have hlast : ¬ ds.getLast? = some '\n' := by
    intro hc
    have hmem : '\n' ∈ ds := List.mem_of_mem_getLast? (by rw [hc]; rfl)
    have := List.all_eq_true.mp h2 _ hmem
    exact absurd this (by decide)
  rw [splitDigitsTail, if_neg hlast]
  exact splitDigitsCore_digits ds h1 h2

theorem splitDigitsTail_some (cs ds : List Char) (h : splitDigitsTail cs = some ds) :
    ds ≠ [] ∧ ds.all isAsciiDigit = true ∧ (cs = ds ∨ cs = ds ++ ['\n']) := by
  rw [splitDigitsTail] at h
  by_cases hnl : cs.getLast? = some '\n'
  · rw [if_pos hnl] at h
    obtain ⟨he, hne, hall⟩ := splitDigitsCore_some _ _ h
    refine ⟨hne, hall, Or.inr ?_⟩
    have hcs : cs ≠ [] := by
      intro hc; subst hc; simp at hnl
    have hlast : cs.getLast hcs = '\n' := by
      have := List.getLast?_eq_getLast cs hcs
      rw [hnl] at this
      exact (Option.some.inj this).symm
    conv_lhs => rw [← List.dropLast_concat_getLast hcs]
    rw [hlast, he]
  · rw [if_neg hnl] at h
    obtain ⟨he, hne, hall⟩ := splitDigitsCore_some _ _ h
    exact ⟨hne, hall, Or.inl he⟩

theorem matchShortPattern_append (pfx : String) (c1 c2 : Char) (ds : List Char)
    (h1 : isShortCodeChar c1 = true) (h2 : isShortCodeChar c2 = true)
    (h3 : ds ≠ []) (h4 : ds.all isAsciiDigit = true) :
    matchShortPattern pfx ⟨pfx.data ++ c1 :: c2 :: ds⟩ = some (⟨[c1, c2]⟩, ⟨ds⟩) := by
  have hdata : (⟨pfx.data ++ c1 :: c2 :: ds⟩ : String).data = pfx.data ++ c1 :: c2 :: ds := rfl
  rw [matchShortPattern]
  simp only [hdata, List.take_left, List.drop_left, if_pos rfl, h1, h2,
    Bool.and_self, if_pos, splitDigitsTail_digits ds h3 h4]

theorem matchShortPattern_some (pfx s : String) (cc ds : String)
    (h : matchShortPattern pfx s = some (cc, ds)) :
    ∃ c1 c2 rest, s.data = pfx.data ++ c1 :: c2 :: rest
      ∧ isShortCodeChar c1 = true ∧ isShortCodeChar c2 = true
      ∧ cc = ⟨[c1, c2]⟩ ∧ splitDigitsTail rest = some ds.data := by
  rw [matchShortPattern] at h
  split at h
  · rename_i htake
    split at h
    · rename_i c1 c2 rest hdrop
      split at h
      · rename_i hclass
        split at h
        · rename_i core hsplit
          rw [Option.some.injEq, Prod.mk.injEq] at h
          refine ⟨c1, c2, rest, ?_, ?_, ?_, h.1.symm, ?_⟩
          · conv_lhs => rw [← List.take_append_drop pfx.data.length s.data]
            rw [htake, hdrop]
          · exact ((Bool.and_eq_true _ _).mp hclass).1
          · exact ((Bool.and_eq_true _ _).mp hclass).2
          · rw [hsplit, ← h.2]
        · exact absurd h (by simp)
      · exact absurd h (by simp)
    · exact absurd h (by simp)
  · exact absurd h (by simp)

theorem matchShortPattern_last (pfx s : String) (cc ds : String)
    (h : matchShortPattern pfx s = some (cc, ds)) :
    ∃ c, s.data.getLast? = some c ∧ (isAsciiDigit c = true ∨ c = '\n') := by
  obtain ⟨c1, c2, rest, hs, _, _, _, hsplit⟩ := matchShortPattern_some pfx s cc ds h
  obtain ⟨hne, hall, hcase⟩ := splitDigitsTail_some rest ds.data hsplit
  rcases hcase with hc | hc
  · rcases hdd : ds.data with _ | ⟨d, dd⟩
    · exact absurd hdd hne
    · obtain ⟨c, hlastc⟩ : ∃ c, (d :: dd).getLast? = some c :=
        ⟨(d :: dd).getLast (by simp), List.getLast?_eq_getLast _ _⟩
      refine ⟨c, ?_, Or.inl (List.all_eq_true.mp hall _ ?_)⟩
      · rw [hs, hc, List.getLast?_append_of_ne_nil _ (by simp),
          List.getLast?_cons_cons, hdd, List.getLast?_cons_cons, hlastc]
      · rw [hdd]
        exact List.mem_of_mem_getLast? (by rw [hlastc]; rfl)
  · refine ⟨'\n', ?_, Or.inr rfl⟩
    rw [hs, hc, List.getLast?_append_of_ne_nil _ (by simp), List.getLast?_cons_cons,
      ← List.cons_append, List.getLast?_concat]

end InvenTreeBarcode

namespace InvenTreeBarcode

theorem string_append_data (s t : String) : (s ++ t).data = s.data ++ t.data := rfl

theorem string_eta (s : String) : (⟨s.data⟩ : String) = s := rfl

theorem objectsGetE_some (m : Model) (k : Int) (r : Record)
    (h : m.objectsGet k = some r) : objectsGetE m k = .ok r := by
  rw [objectsGetE.eq_def, h]

theorem objectsGetE_none (m : Model) (k : Int)
    (h : m.objectsGet k = none) : objectsGetE m k = .error .doesNotExist := by
  rw [objectsGetE.eq_def, h]

theorem tryGet_pyInt_error (m : Model) (v : PyVal) (resp : Record → ScanResponse)
    (e : PyErr) (hv : pyInt v = .error e) : tryGetResponse m v resp = .error e := by
  rw [tryGetResponse.eq_def, hv]

theorem tryGet_found (m : Model) (v : PyVal) (resp : Record → ScanResponse)
    (k : Int) (inst : Record) (hv : pyInt v = .ok k)
    (hg : m.objectsGet k = some inst) :
    tryGetResponse m v resp = .ok (some (resp inst)) := by
  rw [tryGetResponse.eq_def, hv]
  dsimp only
  rw [objectsGetE_some m k inst hg]

theorem tryGet_missing (m : Model) (v : PyVal) (resp : Record → ScanResponse)
    (k : Int) (hv : pyInt v = .ok k) (hg : m.objectsGet k = none) :
    tryGetResponse m v resp = .error .doesNotExist := by
  rw [tryGetResponse.eq_def, hv]
  dsimp only
  rw [objectsGetE_none m k hg]

theorem catch_tryGet_resolved (m : Model) (v : PyVal) (resp : Record → ScanResponse)
    (k : Int) (inst : Record) (hv : pyInt v = .ok k)
    (hg : m.objectsGet k = some inst) :
    catchVDE (tryGetResponse m v resp) = .ok (some (resp inst)) := by
  rw [tryGet_found m v resp k inst hv hg]
  rfl

theorem catch_tryGet_missing (m : Model) (v : PyVal) (resp : Record → ScanResponse)
    (k : Int) (hv : pyInt v = .ok k) (hg : m.objectsGet k = none) :
    catchVDE (tryGetResponse m v resp) = .ok none := by
  rw [tryGet_missing m v resp k hv hg]
  rfl

theorem catch_tryGet_valueError (m : Model) (v : PyVal) (resp : Record → ScanResponse)
    (hv : pyInt v = .error .valueError) :
    catchVDE (tryGetResponse m v resp) = .ok none := by
  rw [tryGet_pyInt_error m v resp _ hv]
  rfl

theorem catch_tryGet_ok_some (m : Model) (v : PyVal) (resp : Record → ScanResponse)
    (r : ScanResponse)
    (h : catchVDE (tryGetResponse m v resp) = .ok (some r)) :
    ∃ k inst, pyInt v = .ok k ∧ m.objectsGet k = some inst ∧ r = resp inst := by
  rcases hv : pyInt v with e | k
  · rw [tryGet_pyInt_error m v resp e hv] at h
    rcases e <;> simp [catchVDE] at h
  · rcases hg : m.objectsGet k with _ | inst
    · rw [tryGet_missing m v resp k hv hg] at h
      simp [catchVDE] at h
    · rw [tryGet_found m v resp k inst hv hg] at h
      simp only [catchVDE, Except.ok.injEq, Option.some.injEq] at h
      exact ⟨k, inst, rfl, hg, h.symm⟩

theorem catch_tryGet_error (m : Model) (v : PyVal) (resp : Record → ScanResponse)
    (e : PyErr) (h : catchVDE (tryGetResponse m v resp) = .error e) :
    e = .typeError ∧ pyInt v = .error .typeError := by
  rcases hv : pyInt v with e' | k
  · rw [tryGet_pyInt_error m v resp e' hv] at h
    rcases e'
    · simp [catchVDE] at h
    · rw [show catchVDE (Except.error PyErr.typeError)
          = Except.error PyErr.typeError from rfl] at h
      exact ⟨(Except.error.inj h).symm, rfl⟩
    · simp [catchVDE] at h
  · rcases hg : m.objectsGet k with _ | inst
    · rw [tryGet_missing m v resp k hv hg] at h
      simp [catchVDE] at h
    · rw [tryGet_found m v resp k inst hv hg] at h
      simp [catchVDE] at h

theorem pyInt_str_ne_typeError (s : String) : pyInt (.str s) ≠ .error .typeError := by
  rw [pyInt]
  rcases intOfString s with _ | n <;> simp

theorem scanStructured_softFail (m : Model) (rest : List Model) (d : PyDict)
    (h : structSoftFail m d = true) :
    scanStructured (m :: rest) d = scanStructured rest d := by
  rcases hk : lookupKey d m.typeLabel with _ | v
  · rw [scanStructured, hk]
  · rw [structSoftFail.eq_def, hk] at h
    dsimp only at h
    rw [scanStructured, hk]
    dsimp only
    rcases hv : pyInt v with e | k
    · rw [hv] at h
      rcases e
      · rw [catch_tryGet_valueError m v _ hv]
      · simp at h
      · simp at h
    · rw [hv] at h
      dsimp only at h
      rw [Option.isNone_iff_eq_none] at h
      rw [catch_tryGet_missing m v _ k hv h]

theorem scanStructured_resolves (m : Model) (rest : List Model) (d : PyDict)
    (inst : Record) (h : structResolves m d inst = true) :
    scanStructured (m :: rest) d =
      .ok (some (withSuccess (formatMatchedResponse m inst))) := by
  rcases hk : lookupKey d m.typeLabel with _ | v
  · rw [structResolves.eq_def, hk] at h; simp at h
  · rw [structResolves.eq_def, hk] at h
    dsimp only at h
    rw [scanStructured, hk]
    dsimp only
    rcases hv : pyInt v with e | k
    · rw [hv] at h
      dsimp only at h
      simp at h
    · rw [hv] at h
      dsimp only at h
      rw [beq_iff_eq] at h
      rw [catch_tryGet_resolved m v _ k inst hv h]

theorem scanStructured_append_soft (pre rest : List Model) (d : PyDict)
    (h : ∀ m ∈ pre, structSoftFail m d = true) :
    scanStructured (pre ++ rest) d = scanStructured rest d := by
  induction pre with
  | nil => rfl
  | cons m pre ih =>
    rw [List.cons_append, scanStructured_softFail m _ d (h m (by simp))]
    exact ih (fun m' hm' => h m' (by simp [hm']))

theorem scanStructured_skip_all (models : List Model) (d : PyDict)
    (h : ∀ m ∈ models, lookupKey d m.typeLabel = none) :
    scanStructured models d = .ok none := by
  induction models with
  | nil => rfl
  | cons m rest ih =>
    rw [scanStructured, h m (by simp)]
    exact ih (fun m' hm' => h m' (by simp [hm']))

theorem scanStructured_ok_some (models : List Model) (d : PyDict) (r : ScanResponse)
    (h : scanStructured models d = .ok (some r)) :
    r.success = some successMessage := by
  induction models with
  | nil => simp [scanStructured] at h
  | cons m rest ih =>
    rw [scanStructured] at h
    rcases hk : lookupKey d m.typeLabel with _ | v
    · rw [hk] at h; exact ih h
    · rw [hk] at h
      dsimp only at h
      rcases hc : catchVDE (tryGetResponse m v
          (fun inst => withSuccess (formatMatchedResponse m inst))) with e | r'
      · rw [hc] at h
        dsimp only at h
        simp at h
      · rcases r' with _ | r'
        · rw [hc] at h
          dsimp only at h
          exact ih h
        · rw [hc] at h
          dsimp only at h
          obtain ⟨k, inst, _, _, hr⟩ := catch_tryGet_ok_some m v _ r' hc
          simp only [Except.ok.injEq, Option.some.injEq] at h
          rw [← h, hr, withSuccess]

theorem scanStructured_error_typeError (models : List Model) (d : PyDict) (e : PyErr)
    (h : scanStructured models d = .error e) : e = .typeError := by
  induction models with
  | nil => simp [scanStructured] at h
  | cons m rest ih =>
    rw [scanStructured] at h
    rcases hk : lookupKey d m.typeLabel with _ | v
    · rw [hk] at h; exact ih h
    · rw [hk] at h
      dsimp only at h
      rcases hc : catchVDE (tryGetResponse m v
          (fun inst => withSuccess (formatMatchedResponse m inst))) with e' | r'
      · rw [hc] at h
        dsimp only at h
        simp only [Except.error.injEq] at h
        rw [← h]
        exact (catch_tryGet_error m v _ e' hc).1
      · rcases r' with _ | r'
        · rw [hc] at h
          dsimp only at h
          exact ih h
        · rw [hc] at h
          dsimp only at h
          simp at h

theorem scanHash_append_none (pre rest : List Model) (hsh : String)
    (h : ∀ m ∈ pre, m.lookupBarcode hsh = none) :
    scanHash (pre ++ rest) hsh = scanHash rest hsh := by
  induction pre with
  | nil => rfl
  | cons m pre ih =>
    rw [List.cons_append, scanHash, h m (by simp)]
    exact ih (fun m' hm' => h m' (by simp [hm']))

theorem scanHash_hit (m : Model) (rest : List Model) (hsh : String) (inst : Record)
    (h : m.lookupBarcode hsh = some inst) :
    scanHash (m :: rest) hsh = some (withSuccess (formatMatchedResponse m inst)) := by
  rw [scanHash, h]

theorem scanHash_all_none (models : List Model) (hsh : String)
    (h : ∀ m ∈ models, m.lookupBarcode hsh = none) :
    scanHash models hsh = none := by
  induction models with
  | nil => rfl
  | cons m rest ih =>
    rw [scanHash, h m (by simp)]
    exact ih (fun m' hm' => h m' (by simp [hm']))

theorem scanHash_some (models : List Model) (hsh : String) (r : ScanResponse)
    (h : scanHash models hsh = some r) : r.success = some successMessage := by
  induction models with
  | nil => simp [scanHash] at h
  | cons m rest ih =>
    rw [scanHash] at h
    rcases hl : m.lookupBarcode hsh with _ | inst
    · rw [hl] at h; exact ih h
    · rw [hl] at h
      simp only [Option.some.injEq] at h
      rw [← h, withSuccess]

theorem scanShortStage_no_error (pfx : String) (models : List Model)
    (b : BarcodeData) (e : PyErr) :
    scanShortStage pfx models b ≠ .finish (.error e) := by
  rcases b with s | d
  case dict => rw [scanShortStage]; simp
  case str =>
    rw [scanShortStage]
    rcases hm : matchShortPattern pfx s with _ | ⟨cc, ds⟩
    · simp
    · dsimp only
      rcases hc : codesMapGet models cc with _ | m
      · simp
      · dsimp only
        rcases hcat : catchVDE (tryGetResponse m (.str ds)
            (formatMatchedResponse m)) with e' | r
        · obtain ⟨_, habs⟩ := catch_tryGet_error m _ _ e' hcat
          exact absurd habs (pyInt_str_ne_typeError ds)
        · rcases r with _ | r <;> simp

theorem scanShortStage_found_success (pfx : String) (models : List Model)
    (b : BarcodeData) (r : ScanResponse)
    (h : scanShortStage pfx models b = .finish (.ok (some r))) :
    r.success = none := by
  rcases b with s | d
  case dict => rw [scanShortStage] at h; simp at h
  case str =>
    rw [scanShortStage] at h
    rcases hm : matchShortPattern pfx s with _ | ⟨cc, ds⟩
    · rw [hm] at h; simp at h
    · rw [hm] at h
      dsimp only at h
      rcases hc : codesMapGet models cc with _ | m
      · rw [hc] at h; simp at h
      · rw [hc] at h
        dsimp only at h
        rcases hcat : catchVDE (tryGetResponse m (.str ds)
            (formatMatchedResponse m)) with e' | r'
        · rw [hcat] at h
          dsimp only at h
          simp at h
        · rcases r' with _ | r'
          · rw [hcat] at h
            dsimp only at h
            simp at h
          · rw [hcat] at h
            dsimp only at h
            simp only [ShortOutcome.finish.injEq, Except.ok.injEq,
              Option.some.injEq] at h
            obtain ⟨k, inst, _, _, hr⟩ := catch_tryGet_ok_some m _ _ r' hcat
            rw [← h, hr, formatMatchedResponse]

end InvenTreeBarcode

namespace InvenTreeBarcode

theorem pyInt_int (n : Int) : pyInt (.int n) = .ok n := rfl

theorem lookupKey_single_eq (label : String) (v : PyVal) :
    lookupKey [(label, v)] label = some v := by
  rw [lookupKey, List.find?_cons]
  simp

theorem lookupKey_single_ne (label : String) (v : PyVal) (key : String)
    (h : key ≠ label) : lookupKey [(label, v)] key = none := by
  rw [lookupKey, List.find?_cons]
  have : (label == key) = false := beq_eq_false_iff_ne.mpr (fun he => h he.symm)
  rw [this]
  rfl

theorem scan_finish (env : Env) (b : BarcodeData)
    (r : Except PyErr (Option ScanResponse))
    (h : scanShortStage env.pfx env.models b = .finish r) : scan env b = r := by
  rw [scan.eq_def, h]

theorem scanDictStage_none (models : List Model) (loads : String → Option PyVal)
    (b : BarcodeData) (h : getBarcodeDict loads b = none) :
    scanDictStage models loads b = .ok none := by
  rw [scanDictStage.eq_def, h]

theorem scanDictStage_some (models : List Model) (loads : String → Option PyVal)
    (b : BarcodeData) (d : PyDict) (h : getBarcodeDict loads b = some d) :
    scanDictStage models loads b = scanStructured models d := by
  rw [scanDictStage.eq_def, h]

theorem scan_fallthrough_some (env : Env) (b : BarcodeData) (r : ScanResponse)
    (h : scanShortStage env.pfx env.models b = .fallthrough)
    (h2 : scanDictStage env.models env.jsonLoads b = .ok (some r)) :
    scan env b = .ok (some r) := by
  rw [scan.eq_def, h]
  dsimp only
  rw [h2]

theorem scan_fallthrough_none (env : Env) (b : BarcodeData)
    (h : scanShortStage env.pfx env.models b = .fallthrough)
    (h2 : scanDictStage env.models env.jsonLoads b = .ok none) :
    scan env b = .ok (scanHash env.models (env.hashBarcode b)) := by
  rw [scan.eq_def, h]
  dsimp only
  rw [h2]

theorem scan_fallthrough_error (env : Env) (b : BarcodeData) (e : PyErr)
    (h : scanShortStage env.pfx env.models b = .fallthrough)
    (h2 : scanDictStage env.models env.jsonLoads b = .error e) :
    scan env b = .error e := by
  rw [scan.eq_def, h]
  dsimp only
  rw [h2]

theorem shortStage_dict (pfx : String) (models : List Model) (d : PyDict) :
    scanShortStage pfx models (.dict d) = .fallthrough := rfl

theorem shortStage_no_pattern (pfx : String) (models : List Model) (s : String)
    (h : matchShortPattern pfx s = none) :
    scanShortStage pfx models (.str s) = .fallthrough := by
  rw [scanShortStage, h]

theorem shortStage_unknown_code (pfx : String) (models : List Model) (s : String)
    (cc ds : String) (hm : matchShortPattern pfx s = some (cc, ds))
    (hc : codesMapGet models cc = none) :
    scanShortStage pfx models (.str s) = .finish (.ok none) := by
  rw [scanShortStage, hm]
  dsimp only
  rw [hc]

theorem shortStage_found (pfx : String) (models : List Model) (s : String)
    (cc ds : String) (m : Model) (k : Int) (inst : Record)
    (hm : matchShortPattern pfx s = some (cc, ds))
    (hc : codesMapGet models cc = some m)
    (hv : pyInt (.str ds) = .ok k)
    (hg : m.objectsGet k = some inst) :
    scanShortStage pfx models (.str s) =
      .finish (.ok (some (formatMatchedResponse m inst))) := by
  rw [scanShortStage, hm]
  dsimp only
  rw [hc]
  dsimp only
  rw [catch_tryGet_resolved m _ _ k inst hv hg]

theorem shortStage_missing (pfx : String) (models : List Model) (s : String)
    (cc ds : String) (m : Model) (k : Int)
    (hm : matchShortPattern pfx s = some (cc, ds))
    (hc : codesMapGet models cc = some m)
    (hv : pyInt (.str ds) = .ok k)
    (hg : m.objectsGet k = none) :
    scanShortStage pfx models (.str s) = .fallthrough := by
  rw [scanShortStage, hm]
  dsimp only
  rw [hc]
  dsimp only
  rw [catch_tryGet_missing m _ _ k hv hg]

theorem getBarcodeDict_dict (loads : String → Option PyVal) (d : PyDict) :
    getBarcodeDict loads (.dict d) = some d := rfl

end InvenTreeBarcode

namespace InvenTreeBarcode

theorem getBarcodeDict_str_none (loads : String → Option PyVal) (s : String)
    (h : loads s = none) : getBarcodeDict loads (.str s) = none := by
  rw [getBarcodeDict, h]

theorem getBarcodeDict_str_dict (loads : String → Option PyVal) (s : String)
    (d : PyDict) (h : loads s = some (.dict d)) :
    getBarcodeDict loads (.str s) = some d := by
  rw [getBarcodeDict, h]

theorem jsonDumpsSingle_data (label : String) (pk : Int) :
    (jsonDumpsSingle label pk).data
      = ("\x7b\"" ++ label ++ "\": " ++ pyStrOfInt pk).data ++ ['\x7d'] := rfl

theorem matchShortPattern_jsonDumps (pfx label : String) (pk : Int) :
    matchShortPattern pfx (jsonDumpsSingle label pk) = none := by
  rcases hm : matchShortPattern pfx (jsonDumpsSingle label pk) with _ | ⟨cc, ds⟩
  · rfl
  · obtain ⟨c, hlast, hc⟩ := matchShortPattern_last pfx _ cc ds hm
    rw [jsonDumpsSingle_data, List.getLast?_concat] at hlast
    have hcc : c = '\x7d' := (Option.some.inj hlast).symm
    subst hcc
    rcases hc with hd | hn
    · exact absurd hd (by decide)
    · exact absurd hn (by decide)

/-- Claim C1 (amended): for a plain-text payload that matches the
short-code pattern but whose extracted type code is absent from the
registry's code-to-descriptor map, `scan` returns NotFound (`None`)
immediately: the whole scan short-circuits and strategies 2 and 3 are
not attempted on the payload. -/
theorem c1_unknown_code_short_circuits (env : Env) (s cc ds : String)
    (hm : matchShortPattern env.pfx s = some (cc, ds))
    (hc : codesMapGet env.models cc = none) :
    scan env (.str s) = .ok none :=
  scan_finish env _ _ (shortStage_unknown_code env.pfx env.models s cc ds hm hc)

/-- Claim C1 witness: in the sample environment the payload
`"INV-XX7"` matches the pattern with the unknown code `"XX"`, and
`scan` returns NotFound. -/
theorem c1_witness : scan envHash (.str "INV-XX7") = .ok none :=
  c1_unknown_code_short_circuits envHash "INV-XX7" "XX" "7" rfl rfl

/-- Claim C1 counterexample: `"INV-XX7"` matches the short-code
pattern, its type code `"XX"` is unknown, and the hash strategy would
find the linked stock item; yet `scan` returns NotFound, so it does
not fall through to strategies 2 and 3 as the claim states. -/
theorem c1_counterexample :
    matchShortPattern envHash.pfx "INV-XX7" = some ("XX", "7")
    ∧ codesMapGet envHash.models "XX" = none
    ∧ scanHash envHash.models (envHash.hashBarcode (.str "INV-XX7"))
        = some ⟨"stockitem", "item1", some successMessage⟩
    ∧ scan envHash (.str "INV-XX7") = .ok none :=
  ⟨rfl, rfl, rfl, rfl⟩

/-- Claim C2 (amended): `scan` always terminates, and the only
exception that can escape is the `TypeError` raised by `int()` on a
structured value that is not int-coercible (`None`, an array or an
object); every other outcome is an ordinary found / NotFound result.
In particular string parse failures (`ValueError`), absent records
(`DoesNotExist`) and unknown type codes never raise. -/
theorem c2_no_exception_except_typeError (env : Env) (b : BarcodeData) :
    (∃ r, scan env b = .ok r) ∨ scan env b = .error .typeError := by
  rcases hS : scanShortStage env.pfx env.models b with _ | r
  case fallthrough =>
    rcases hD : scanDictStage env.models env.jsonLoads b with e | r
    case error =>
      have he : e = .typeError := by
        rw [scanDictStage.eq_def] at hD
        rcases hg : getBarcodeDict env.jsonLoads b with _ | d
        · rw [hg] at hD
          simp at hD
        · rw [hg] at hD
          dsimp only at hD
          exact scanStructured_error_typeError env.models d e hD
      right
      rw [scan_fallthrough_error env b e hS hD, he]
    case ok =>
      rcases r with _ | r
      · exact Or.inl ⟨_, scan_fallthrough_none env b hS hD⟩
      · exact Or.inl ⟨_, scan_fallthrough_some env b r hS hD⟩
  case finish =>
    rcases r with e | r2
    · exact absurd hS (scanShortStage_no_error env.pfx env.models b e)
    · exact Or.inl ⟨r2, scan_finish env b _ hS⟩

/-- Claim C2 counterexample: scanning the structured payload
`{"part": None}` raises an uncaught `TypeError` from
`int(barcode_dict[label])`, because only `ValueError` and
`DoesNotExist` are caught; the claim that `scan` never raises is
false. -/
theorem c2_counterexample :
    scan envHash (.dict [("part", .null)]) = .error .typeError := rfl

/-- Claim C3: when a plain-text payload fully satisfies Strategy 1
(pattern match, registered code, existing record) and the payload
would also decode as a structured document, `scan` returns
Strategy 1's result: the short-code strategy short-circuits the
remaining strategies. -/
theorem c3_short_priority (env : Env) (s : String) (r : ScanResponse) (d : PyDict)
    (hshort : scanShortStage env.pfx env.models (.str s) = .finish (.ok (some r)))
    (hdict : getBarcodeDict env.jsonLoads (.str s) = some d) :
    scan env (.str s) = .ok (some r) :=
  scan_finish env _ _ hshort

/-- Claim C3 witness: in `envBoth` the payload `"INV-PA42"` both
resolves under Strategy 1 and decodes as a structured document; the
scan returns Strategy 1's response (no `success` key). -/
theorem c3_witness :
    scan envBoth (.str "INV-PA42") = .ok (some ⟨"part", "part42", none⟩) :=
  c3_short_priority envBoth "INV-PA42" ⟨"part", "part42", none⟩
    [("part", .int 1)] rfl rfl

/-- Claim C8: `scan` is a deterministic function of the payload and of
the environment it consults (settings, registry, record store): two
calls with the same payload and unchanged external state return equal
results. -/
theorem c8_scan_deterministic (env : Env) (b : BarcodeData)
    (r1 r2 : Except PyErr (Option ScanResponse))
    (h1 : scan env b = r1) (h2 : scan env b = r2) : r1 = r2 := by
  rw [← h1, ← h2]

/-- Claim C8 witness: two identical scans of `"INV-PA42"` in the short
environment agree. -/
theorem c8_witness :
    (Except.ok (some (⟨"part", "part42", none⟩ : ScanResponse))
      : Except PyErr (Option ScanResponse))
    = .ok (some ⟨"part", "part42", none⟩) :=
  c8_scan_deterministic envShort (.str "INV-PA42") _ _ rfl rfl

/-- Claim C9: a Strategy 1 (short-code) match carries no `success`
key, while every Strategy 2 (structured) and Strategy 3 (hash) match
carries `success = "Found matching item"`. -/
theorem c9_success_key (pfx : String) (models : List Model) (b : BarcodeData)
    (d : PyDict) (hsh : String) (r : ScanResponse) :
    (scanShortStage pfx models b = .finish (.ok (some r)) → r.success = none)
    ∧ (scanStructured models d = .ok (some r) → r.success = some successMessage)
    ∧ (scanHash models hsh = some r → r.success = some successMessage) :=
  ⟨scanShortStage_found_success pfx models b r,
   scanStructured_ok_some models d r,
   scanHash_some models hsh r⟩

/-- Claim C9 witness: concrete matches of the three strategies, with
and without the `success` key. -/
theorem c9_witness :
    (⟨"part", "part42", none⟩ : ScanResponse).success = none
    ∧ (⟨"part", "part42", some successMessage⟩ : ScanResponse).success
        = some successMessage
    ∧ (⟨"stockitem", "item1", some successMessage⟩ : ScanResponse).success
        = some successMessage := by
  refine ⟨?_, ?_, ?_⟩
  · exact (c9_success_key "INV-" [mPart] (.str "INV-PA42") [] "h" _).1 rfl
  · exact (c9_success_key "INV-" [mPart] (.dict [("part", .int 42)])
      [("part", .int 42)] "h" _).2.1 rfl
  · exact (c9_success_key "INV-" [mPart, mItem] (.str "x") [] "HV" _).2.2 rfl

/-- Claim C10: `Part.stock` returns 0 when the part has no stock
entries, and the sum of the `quantity` values over all its stock
locations otherwise. -/
theorem c10_part_stock (p : PartRec) :
    (p.locations = [] → partStock p = 0)
    ∧ (p.locations ≠ [] →
        partStock p = (p.locations.map StockEntry.quantity).sum) := by
  constructor
  · intro h
    rw [partStock, h]
    simp
  · intro h
    rw [partStock, if_neg (by simpa using h), sumAggregate, List.sum_eq_foldl]

/-- Claim C10 witness: an empty store gives 0, two entries of 3 and 4
give 7. -/
theorem c10_witness : partStock ⟨[]⟩ = 0 ∧ partStock ⟨[⟨3⟩, ⟨4⟩]⟩ = 7 := by
  constructor
  · exact (c10_part_stock ⟨[]⟩).1 rfl
  · rw [(c10_part_stock ⟨[⟨3⟩, ⟨4⟩]⟩).2 (by simp)]
    rfl

end InvenTreeBarcode

namespace InvenTreeBarcode

/-- Claim C4: on a structured payload whose keys name two registered
descriptors, the structured strategy returns the match of whichever
descriptor comes first in registration order, even though the later
descriptor's key is present; and a descriptor whose key holds an
unparsable id or refers to no record is skipped in favour of the next
one rather than aborting the strategy. -/
theorem c4_structured_first_match (env : Env) (d : PyDict)
    (pre mid post : List Model) (m1 m2 : Model)
    (hmodels : env.models = pre ++ m1 :: (mid ++ m2 :: post))
    (hpre : ∀ m ∈ pre, structSoftFail m d = true)
    (hkey2 : (lookupKey d m2.typeLabel).isSome = true) :
    (∀ inst1, structResolves m1 d inst1 = true →
      scan env (.dict d)
        = .ok (some (withSuccess (formatMatchedResponse m1 inst1))))
    ∧ (structSoftFail m1 d = true →
       (∀ m ∈ mid, structSoftFail m d = true) →
       ∀ inst2, structResolves m2 d inst2 = true →
      scan env (.dict d)
        = .ok (some (withSuccess (formatMatchedResponse m2 inst2)))) := by
  have hstage := shortStage_dict env.pfx env.models d
  have hdict := getBarcodeDict_dict env.jsonLoads d
  constructor
  · intro inst1 hres
    apply scan_fallthrough_some env _ _ hstage
    rw [scanDictStage_some _ _ _ d hdict, hmodels,
      scanStructured_append_soft pre _ d hpre,
      scanStructured_resolves m1 _ d inst1 hres]
  · intro hsoft1 hmid inst2 hres
    apply scan_fallthrough_some env _ _ hstage
    rw [scanDictStage_some _ _ _ d hdict, hmodels,
      scanStructured_append_soft pre _ d hpre,
      scanStructured_softFail m1 _ d hsoft1,
      scanStructured_append_soft mid _ d hmid,
      scanStructured_resolves m2 _ d inst2 hres]

/-- Claim C4 witness: with registration order part, stock-location,
the payload naming both labels resolves to the part when the part id
exists, and to the stock location when the part id matches no
record. -/
theorem c4_witness :
    scan envTwo (.dict d4a) = .ok (some ⟨"part", "part42", some successMessage⟩)
    ∧ scan envTwo (.dict d4b)
        = .ok (some ⟨"stocklocation", "loc5", some successMessage⟩) := by
  constructor
  · exact (c4_structured_first_match envTwo d4a [] [] [] mPart mLoc rfl
      (by simp) (by decide)).1 recPart42 (by decide)
  · exact (c4_structured_first_match envTwo d4b [] [] [] mPart mLoc rfl
      (by simp) (by decide)).2 (by decide) (by simp) recLoc5 (by decide)

/-- Claim C7: for any payload that matches no short-code pattern and
whose decoded structured document (if any) names no registered label,
`scan` returns exactly the hash strategy's answer on the hash of the
original payload: the first registered descriptor, in order, whose
external-hash lookup yields a record wins, and NotFound results when
none does. -/
theorem c7_hash_fallback (env : Env) (b : BarcodeData)
    (hshort : ∀ s, b = BarcodeData.str s → matchShortPattern env.pfx s = none)
    (hdict : ∀ d, getBarcodeDict env.jsonLoads b = some d →
      ∀ m ∈ env.models, lookupKey d m.typeLabel = none) :
    scan env b = .ok (scanHash env.models (env.hashBarcode b))
    ∧ (∀ pre m post inst, env.models = pre ++ m :: post →
        (∀ m' ∈ pre, m'.lookupBarcode (env.hashBarcode b) = none) →
        m.lookupBarcode (env.hashBarcode b) = some inst →
        scanHash env.models (env.hashBarcode b)
          = some (withSuccess (formatMatchedResponse m inst)))
    ∧ ((∀ m' ∈ env.models, m'.lookupBarcode (env.hashBarcode b) = none) →
        scanHash env.models (env.hashBarcode b) = none) := by
  have hstage : scanShortStage env.pfx env.models b = .fallthrough := by
    rcases b with s | d
    · exact shortStage_no_pattern env.pfx env.models s (hshort s rfl)
    · exact shortStage_dict env.pfx env.models d
  have hD : scanDictStage env.models env.jsonLoads b = .ok none := by
    rcases hg : getBarcodeDict env.jsonLoads b with _ | d
    · exact scanDictStage_none _ _ _ hg
    · rw [scanDictStage_some _ _ _ d hg]
      exact scanStructured_skip_all env.models d (hdict d hg)
  refine ⟨scan_fallthrough_none env b hstage hD, ?_, ?_⟩
  · intro pre m post inst hmodels hpre hm
    rw [hmodels, scanHash_append_none pre _ _ hpre, scanHash_hit m post _ inst hm]
  · intro hall
    exact scanHash_all_none env.models _ hall

/-- Claim C7 witness: `"garbage"` matches no pattern and decodes to no
document; in `envHash` the stock item linked to the payload's hash is
found, in `envTwo` no hash is linked and the scan yields NotFound. -/
theorem c7_witness :
    scan envHash (.str "garbage")
      = .ok (some ⟨"stockitem", "item1", some successMessage⟩)
    ∧ scan envTwo (.str "garbage") = .ok none := by
  constructor
  · have h := c7_hash_fallback envHash (.str "garbage")
      (by intro s hs; cases hs; rfl)
      (by
        intro d hd
        rw [show getBarcodeDict envHash.jsonLoads (BarcodeData.str "garbage")
          = none from rfl] at hd
        exact Option.noConfusion hd)
    rw [h.1]
    rfl
  · have h := c7_hash_fallback envTwo (.str "garbage")
      (by intro s hs; cases hs; rfl)
      (by
        intro d hd
        rw [show getBarcodeDict envTwo.jsonLoads (BarcodeData.str "garbage")
          = none from rfl] at hd
        exact Option.noConfusion hd)
    rw [h.1]
    rfl

end InvenTreeBarcode

namespace InvenTreeBarcode

/-- Claim C5: for a registered descriptor (two-character code from the
allowed class, codes unique) and any non-negative id, `generate` with
format `short` and prefix P emits exactly P ++ code ++ decimal digits
(no leading zeros), and scanning that output with the same prefix
returns the short-format match for the stored record when one exists
and NotFound otherwise (provided, as with the real collaborators, the
emitted string is not JSON-decodable and no external barcode is linked
to its hash). -/
theorem c5_short_roundtrip (env : Env) (m : Model) (inst : Record)
    (c1 c2 : Char)
    (hfmt : env.fmt = "short")
    (hcode : m.typeCode.data = [c1, c2])
    (hc1 : isShortCodeChar c1 = true) (hc2 : isShortCodeChar c2 = true)
    (hpk : 0 ≤ inst.pk)
    (hmap : codesMapGet env.models m.typeCode = some m)
    (hloads : env.jsonLoads (generate env m inst) = none)
    (hhash : ∀ m' ∈ env.models,
      m'.lookupBarcode (env.hashBarcode (.str (generate env m inst))) = none) :
    generate env m inst = env.pfx ++ m.typeCode ++ pyStrOfInt inst.pk
    ∧ (pyStrOfInt inst.pk).data.all isAsciiDigit = true
    ∧ ((pyStrOfInt inst.pk).data.head? = some '0' → inst.pk = 0)
    ∧ (∀ inst', m.objectsGet inst.pk = some inst' →
        scan env (.str (generate env m inst))
          = .ok (some (formatMatchedResponse m inst')))
    ∧ (m.objectsGet inst.pk = none →
        scan env (.str (generate env m inst)) = .ok none) := by
  obtain ⟨k, hk⟩ : ∃ k : Nat, inst.pk = Int.ofNat k :=
    ⟨inst.pk.toNat, (Int.toNat_of_nonneg hpk).symm⟩
  have hgen : generate env m inst = env.pfx ++ m.typeCode ++ pyStrOfInt inst.pk := by
    rw [generate, hfmt]
    rfl
  have hstr : pyStrOfInt inst.pk = ⟨natDigits k⟩ := by
    rw [hk]
    rfl
  have hdata : generate env m inst = ⟨env.pfx.data ++ c1 :: c2 :: natDigits k⟩ := by
    rw [hgen, hstr]
    have h1 : env.pfx ++ m.typeCode ++ (⟨natDigits k⟩ : String)
        = ⟨(env.pfx.data ++ m.typeCode.data) ++ natDigits k⟩ := rfl
    rw [h1, hcode, List.append_assoc]
    rfl
  have hmatch : matchShortPattern env.pfx (generate env m inst)
      = some (m.typeCode, ⟨natDigits k⟩) := by
    rw [hdata, matchShortPattern_append env.pfx c1 c2 (natDigits k) hc1 hc2
      (natDigits_ne_nil k) (natDigits_all k), ← hcode, string_eta]
  have hvds : pyInt (.str ⟨natDigits k⟩) = .ok inst.pk := by
    rw [pyInt_natDigits k, hk]
  refine ⟨hgen, ?_, ?_, ?_, ?_⟩
  · rw [hstr]
    exact natDigits_all k
  · rw [hstr]
    intro h0
    rw [hk, natDigits_head_zero k h0]
    rfl
  · intro inst' hget
    exact scan_finish env _ _ (shortStage_found env.pfx env.models
      (generate env m inst) m.typeCode ⟨natDigits k⟩ m inst.pk inst'
      hmatch hmap hvds hget)
  · intro hget
    have hstage := shortStage_missing env.pfx env.models (generate env m inst)
      m.typeCode ⟨natDigits k⟩ m inst.pk hmatch hmap hvds hget
    have hbd : getBarcodeDict env.jsonLoads (.str (generate env m inst)) = none :=
      getBarcodeDict_str_none _ _ hloads
    rw [scan_fallthrough_none env _ hstage (scanDictStage_none _ _ _ hbd),
      scanHash_all_none env.models _ hhash]

/-- Claim C5 witness: `generate(part 42)` in the short environment
yields a string that scans back to part 42; over an empty store the
same barcode scans to NotFound. -/
theorem c5_witness :
    scan envShort (.str (generate envShort mPart recPart42))
      = .ok (some ⟨"part", "part42", none⟩)
    ∧ scan envShortEmpty (.str (generate envShortEmpty mPartEmpty recPart42))
      = .ok none := by
  constructor
  · exact (c5_short_roundtrip envShort mPart recPart42 'P' 'A' rfl rfl
      (by decide) (by decide) (by decide) rfl rfl (by decide)).2.2.2.1
      recPart42 rfl
  · exact (c5_short_roundtrip envShortEmpty mPartEmpty recPart42 'P' 'A' rfl rfl
      (by decide) (by decide) (by decide) rfl rfl (by decide)).2.2.2.2 rfl

/-- Claim C6: with the default `json` format, `generate` emits the
single-key document `{typeLabel: pk}` serialized to text, and
scanning that text resolves through the structured strategy (labels
unique across the registry) to the stored record with the success
message when it exists, and to NotFound otherwise (with the real
`json.loads` behaviour supplied as a hypothesis on the abstract
parser, and no external barcode linked to the text's hash). -/
theorem c6_json_roundtrip (env : Env) (m : Model) (inst : Record)
    (pre post : List Model)
    (hfmt : env.fmt = "json")
    (hmodels : env.models = pre ++ m :: post)
    (hpre : ∀ m' ∈ pre, m'.typeLabel ≠ m.typeLabel)
    (hpost : ∀ m' ∈ post, m'.typeLabel ≠ m.typeLabel)
    (hloads : env.jsonLoads (generate env m inst)
      = some (.dict [(m.typeLabel, .int inst.pk)]))
    (hhash : ∀ m' ∈ env.models,
      m'.lookupBarcode (env.hashBarcode (.str (generate env m inst))) = none) :
    generate env m inst = jsonDumpsSingle m.typeLabel inst.pk
    ∧ (∀ inst', m.objectsGet inst.pk = some inst' →
        scan env (.str (generate env m inst))
          = .ok (some (withSuccess (formatMatchedResponse m inst'))))
    ∧ (m.objectsGet inst.pk = none →
        scan env (.str (generate env m inst)) = .ok none) := by
  have hgen : generate env m inst = jsonDumpsSingle m.typeLabel inst.pk := by
    rw [generate, hfmt]
    rfl
  have hnomatch : matchShortPattern env.pfx (generate env m inst) = none := by
    rw [hgen]
    exact matchShortPattern_jsonDumps env.pfx m.typeLabel inst.pk
  have hstage : scanShortStage env.pfx env.models (.str (generate env m inst))
      = .fallthrough := shortStage_no_pattern _ _ _ hnomatch
  have hbd : getBarcodeDict env.jsonLoads (.str (generate env m inst))
      = some [(m.typeLabel, .int inst.pk)] :=
    getBarcodeDict_str_dict _ _ _ hloads
  have hskipPre : ∀ m' ∈ pre,
      structSoftFail m' [(m.typeLabel, .int inst.pk)] = true := by
    intro m' hm'
    rw [structSoftFail.eq_def,
      lookupKey_single_ne m.typeLabel _ m'.typeLabel (hpre m' hm')]
  refine ⟨hgen, ?_, ?_⟩
  · intro inst' hget
    have hres : structResolves m [(m.typeLabel, .int inst.pk)] inst' = true := by
      rw [structResolves.eq_def, lookupKey_single_eq]
      dsimp only
      rw [pyInt_int]
      dsimp only
      rw [hget]
      exact beq_iff_eq.mpr rfl
    apply scan_fallthrough_some env _ _ hstage
    rw [scanDictStage_some _ _ _ _ hbd, hmodels,
      scanStructured_append_soft pre _ _ hskipPre,
      scanStructured_resolves m _ _ inst' hres]
  · intro hget
    have hsoft : structSoftFail m [(m.typeLabel, .int inst.pk)] = true := by
      rw [structSoftFail.eq_def, lookupKey_single_eq]
      dsimp only
      rw [pyInt_int]
      dsimp only
      rw [hget]
      rfl
    have hskipPost : ∀ m' ∈ post,
        lookupKey [(m.typeLabel, .int inst.pk)] m'.typeLabel = none :=
      fun m' hm' => lookupKey_single_ne _ _ _ (hpost m' hm')
    have hD : scanDictStage env.models env.jsonLoads
        (.str (generate env m inst)) = .ok none := by
      rw [scanDictStage_some _ _ _ _ hbd, hmodels,
        scanStructured_append_soft pre _ _ hskipPre,
        scanStructured_softFail m _ _ hsoft,
        scanStructured_skip_all post _ hskipPost]
    rw [scan_fallthrough_none env _ hstage hD,
      scanHash_all_none env.models _ hhash]

/-- Claim C6 witness: `generate(part 42)` in the JSON environment
round-trips to part 42 through the structured strategy; over an empty
store the same document scans to NotFound. -/
theorem c6_witness :
    scan envJson (.str (generate envJson mPart recPart42))
      = .ok (some ⟨"part", "part42", some successMessage⟩)
    ∧ scan envJsonEmpty (.str (generate envJsonEmpty mPartEmpty recPart42))
      = .ok none := by
  constructor
  · exact (c6_json_roundtrip envJson mPart recPart42 [] [] rfl rfl (by simp)
      (by simp) rfl (by decide)).2.1 recPart42 rfl
  · exact (c6_json_roundtrip envJsonEmpty mPartEmpty recPart42 [] [] rfl rfl
      (by simp) (by simp) rfl (by decide)).2.2 rfl

end InvenTreeBarcode
